import Mathlib

/-!
Formal model of the change-feed notification engine of
`config/examples/tpch/dashboard/backend/main.py`: the `poll_events`
background task (Event Source + Broadcaster over the `db_events` table),
the `connected_clients` registry (a Python `set`), and the
`websocket_endpoint` connection-lifecycle handler.

The embedding is a shallow one: the global `last_event_id` and
`connected_clients` become an explicit state record threaded through a
cycle function; `await database.fetch_all` of the query
`SELECT ... WHERE id > :last_id ORDER BY id ASC LIMIT :limit` becomes a
pure filter-and-take over the table contents; exceptions become explicit
outcome constructors; the behaviour of each `await client.send_json`
(return normally, raise, or never complete) is an oracle parameter.
-/

/-- A subscriber handle: one entry of the `connected_clients` set.
Only identity matters, so a handle is a natural number. -/
abbrev Client := Nat

/-- `connected_clients.add w` — Python `set.add`: a no-op when the
element is already present. The registry is modelled as a duplicate-free
list. -/
def pyAdd (cl : List Client) (w : Client) : List Client :=
  if w ∈ cl then cl else cl ++ [w]

/-- `connected_clients.discard w` — Python `set.discard`: removes `w`
when present and is a silent no-op (raises no error) when absent. -/
def pyDiscard (cl : List Client) (w : Client) : List Client :=
  cl.erase w

/-- `connected_clients.difference_update d` — removes every element of
`d` from the set. -/
def pyDifferenceUpdate (cl d : List Client) : List Client :=
  cl.filter (fun c => decide (c ∉ d))

/-- One row of `db_events` as returned by the `poll_events` query:
`id, entity, event_type, payload, created_at`. `createdAtOk` records
whether `event["created_at"].isoformat()` succeeds (it raises when the
row's `created_at` value is not a datetime, which is what makes a record
malformed); `createdAtIso` is the resulting string when it does. -/
structure DbEvent where
  id : Nat
  entity : String
  eventType : String
  payload : String
  createdAtOk : Bool
  createdAtIso : String
deriving DecidableEq

/-- The JSON object sent to each client:
`{"entity": ..., "event_type": ..., "data": payload, "timestamp": created_at.isoformat()}`. -/
structure WireMessage where
  entity : String
  eventType : String
  data : String
  timestamp : String
deriving DecidableEq

/-- Constructing the wire message for one record. `none` models the
construction raising (a malformed record): that exception is not caught
inside the `for event in new_events` loop. -/
def toMessage (r : DbEvent) : Option WireMessage :=
  if r.createdAtOk then
    some { entity := r.entity, eventType := r.eventType,
           data := r.payload, timestamp := r.createdAtIso }
  else none

/-- Behaviour of one `await client.send_json(message)`: it returns
normally (`ok`), raises an exception caught by the inner
`except Exception` (`exc`), or never completes (`hang`). -/
inductive SendR
  | ok
  | exc
  | hang
deriving DecidableEq

/-- `true` exactly on `SendR.ok`. -/
def isOk : SendR → Bool
  | .ok => true
  | _ => false

/-- `true` exactly on `SendR.exc`. -/
def isExc : SendR → Bool
  | .exc => true
  | _ => false

/-- Result of the inner `for client in connected_clients` loop for one
record: which clients the send was started for, which received the
message, which raised (collected in the local `disconnected` set), and
whether some send never completed, freezing the task at that point. -/
structure SendPass where
  attempted : List Client
  delivered : List Client
  disconnected : List Client
  hung : Bool
deriving DecidableEq

/-- The inner loop of `poll_events` for one record:
`disconnected = set()`; then for each client in order,
`try: await client.send_json(message) except Exception: disconnected.add(client)`.
A send that never completes stops the loop (and the whole `poll_events`
task) right there: no later client is attempted. -/
def sendLoop (sb : Client → Nat → SendR) (rid : Nat) : List Client → SendPass
  | [] => { attempted := [], delivered := [], disconnected := [], hung := false }
  | c :: cs =>
    match sb c rid with
    | .hang => { attempted := [c], delivered := [], disconnected := [], hung := true }
    | .ok =>
      let p := sendLoop sb rid cs
      { p with attempted := c :: p.attempted, delivered := c :: p.delivered }
    | .exc =>
      let p := sendLoop sb rid cs
      { p with attempted := c :: p.attempted, disconnected := c :: p.disconnected }

/-- One per-record entry of the delivery trace: the record id, the
clients a send was started for, and the clients that received the
message. -/
structure LogEntry where
  rid : Nat
  attempted : List Client
  delivered : List Client
deriving DecidableEq

/-- Outcome of the `for event in new_events` loop of one cycle. -/
inductive BatchOut
  | done (clients : List Client)
  | excp (clients : List Client)
  | hung
deriving DecidableEq

/-- The `for event in new_events` loop: build the wire message (a
malformed record raises here, escaping to the outer `except` with the
registry as already mutated by earlier records), run the inner send
loop, then `connected_clients.difference_update(disconnected)`. A hung
send freezes the task. Returns the outcome together with the delivery
trace of the records processed. -/
def runBatch (sb : Client → Nat → SendR) :
    List DbEvent → List Client → BatchOut × List LogEntry
  | [], cl => (.done cl, [])
  | r :: rs, cl =>
    match toMessage r with
    | none => (.excp cl, [])
    | some _ =>
      let p := sendLoop sb r.id cl
      if p.hung then
        (.hung, [{ rid := r.id, attempted := p.attempted, delivered := p.delivered }])
      else
        let cl2 := pyDifferenceUpdate cl p.disconnected
        let res := runBatch sb rs cl2
        (res.1, { rid := r.id, attempted := p.attempted, delivered := p.delivered } :: res.2)

/-- `LIMIT :limit` parameter of the query: `MAX_EVENTS_PER_POLL = 100`. -/
def MAX_EVENTS_PER_POLL : Nat := 100

/-- `await database.fetch_all(query, {"last_id": lastId, "limit": limit})`
for the query `SELECT id, entity, event_type, payload, created_at FROM
db_events WHERE id > :last_id ORDER BY id ASC LIMIT :limit`. The table
`db` is kept in ascending id order (append-only, monotone keys), so the
result is the filtered table truncated to `limit` rows. -/
def fetchAll (db : List DbEvent) (lastId limit : Nat) : List DbEvent :=
  (db.filter (fun r => decide (lastId < r.id))).take limit

/-- The id of the last row of a query result (`new_events[-1]["id"]`);
only used on a non-empty result. -/
def lastRowId (evs : List DbEvent) : Nat :=
  match evs.getLast? with
  | some r => r.id
  | none => 0

/-- The mutable globals of `main.py`: `last_event_id` and
`connected_clients`. -/
structure St where
  lastEventId : Nat
  clients : List Client
deriving DecidableEq

/-- Result of one iteration of the `while True` loop: either the task
reaches `await asyncio.sleep(POLL_INTERVAL)` with updated globals and a
delivery trace, or a send hung and the loop never resumes. -/
inductive CycleRes
  | next (st : St) (lg : List LogEntry)
  | stuck (lg : List LogEntry)
deriving DecidableEq

/-- One iteration of the `while True` loop of `poll_events`.
`fetchOk = false` models `database.fetch_all` raising (query failure):
the outer `except` prints the error and the loop sleeps with both
globals unchanged. On a successful query, the `if new_events:` guard
skips empty results; otherwise the batch loop runs, and
`last_event_id = new_events[-1]["id"]` executes only when that loop
finishes without an exception. -/
def pollCycle (db : List DbEvent) (fetchOk : Bool) (sb : Client → Nat → SendR)
    (st : St) : CycleRes :=
  if fetchOk then
    let evs := fetchAll db st.lastEventId MAX_EVENTS_PER_POLL
    if evs.isEmpty then .next st []
    else
      match runBatch sb evs st.clients with
      | (.done cl, lg) => .next { lastEventId := lastRowId evs, clients := cl } lg
      | (.excp cl, lg) => .next { lastEventId := st.lastEventId, clients := cl } lg
      | (.hung, lg) => .stuck lg
  else .next st []

/-- Environment of one poll cycle: the clients that `websocket_endpoint`
tasks register while the polling task sleeps before the cycle, whether
the query succeeds, and the behaviour of each send during the cycle. -/
structure Env where
  joins : List Client
  fetchOk : Bool
  sb : Client → Nat → SendR

/-- Registering several clients in order (each an `add` on the set). -/
def pyAddAll (cl : List Client) (ws : List Client) : List Client :=
  ws.foldl pyAdd cl

/-- Result of a finite run of the polling loop: the final globals and
the per-cycle delivery traces, or the trace up to the cycle in which a
send hung. -/
inductive RunRes
  | fin (st : St) (lgs : List (List LogEntry))
  | stuck (lgs : List (List LogEntry))
deriving DecidableEq

/-- A finite sequence of poll cycles of `poll_events`, one environment
per cycle. -/
def runCycles (db : List DbEvent) : List Env → St → RunRes
  | [], st => .fin st []
  | e :: es, st =>
    let st0 : St := { st with clients := pyAddAll st.clients e.joins }
    match pollCycle db e.fetchOk e.sb st0 with
    | .next st1 lg =>
      match runCycles db es st1 with
      | .fin st2 lgs => .fin st2 (lg :: lgs)
      | .stuck lgs => .stuck (lg :: lgs)
    | .stuck lg => .stuck [lg]

/-- Why a `websocket_endpoint` receive loop terminated. -/
inductive ExitCause
  | gracefulClose
  | protocolError
  | transportReset
  | unexpected
deriving DecidableEq

/-- `websocket_endpoint`: accept, `connected_clients.add(websocket)`,
then the receive loop (whose body only awaits `receive_text`, so it
terminates only by an exception, whatever `cause`); the `except` block
prints, and the `finally` clause runs `connected_clients.discard(websocket)`
on every exit path — also when the exception is not caught by the
`except Exception` clause. The returned value is the registry after the
handler finishes. -/
def websocketEndpoint (cl : List Client) (w : Client) (cause : ExitCause) :
    List Client :=
  let cl1 := pyAdd cl w
  match cause with
  | _ => pyDiscard cl1 w

/-- The `for event in new_events` loop when one concurrent registry
insertion occurs: while the send of the record with batch index `ri` to
the head client of that record's iteration is awaited, a
`websocket_endpoint` task runs `connected_clients.add w`. When the
`for client in connected_clients` iterator is resumed after that send
(whether the send returned or raised), CPython raises
`RuntimeError: Set changed size during iteration`, which is not caught
by the inner `except` (it is outside the `try`) and escapes to the
outer `except` of `poll_events`: the cycle aborts there, so the
record's `difference_update` does not run, no later record is
attempted, and `last_event_id` is not assigned.  Records with batch
index below `ri` run exactly as in `runBatch`. -/
def runBatchM (sb : Client → Nat → SendR) (ri : Nat) (w : Client) :
    List DbEvent → List Client → BatchOut × List LogEntry
  | [], cl => (.done cl, [])
  | r :: rs, cl =>
    match toMessage r with
    | none => (.excp cl, [])
    | some _ =>
      if ri = 0 then
        let att := cl.take 1
        let p := sendLoop sb r.id att
        (.excp (pyAdd cl w), [{ rid := r.id, attempted := att, delivered := p.delivered }])
      else
        let p := sendLoop sb r.id cl
        if p.hung then
          (.hung, [{ rid := r.id, attempted := p.attempted, delivered := p.delivered }])
        else
          let cl2 := pyDifferenceUpdate cl p.disconnected
          let res := runBatchM sb (ri - 1) w rs cl2
          (res.1, { rid := r.id, attempted := p.attempted, delivered := p.delivered } :: res.2)

/-- One iteration of the `while True` loop of `poll_events` with a
successful query and one concurrent registry insertion during the batch
(see `runBatchM`). -/
def pollCycleM (db : List DbEvent) (sb : Client → Nat → SendR) (ri : Nat)
    (w : Client) (st : St) : CycleRes :=
  let evs := fetchAll db st.lastEventId MAX_EVENTS_PER_POLL
  if evs.isEmpty then .next st []
  else
    match runBatchM sb ri w evs st.clients with
    | (.done cl, lg) => .next { lastEventId := lastRowId evs, clients := cl } lg
    | (.excp cl, lg) => .next { lastEventId := st.lastEventId, clients := cl } lg
    | (.hung, lg) => .stuck lg

/-!
### Specification-side characterisations

The following definitions restate, in the spec's vocabulary, what the
delivery trace of a batch should look like; the theorems below compare
them with the trace actually produced by `runBatch`.
-/

/-- The registry members that survive a batch: the batch-start
membership minus every handle whose send raised on some record —
computed record by record, as the spec's "minus handles that failed
earlier in the same batch". -/
def survivorsList (sb : Client → Nat → SendR) (cl : List Client) :
    List DbEvent → List Client
  | [] => cl
  | r :: rs => survivorsList sb (cl.filter (fun c => isOk (sb c r.id))) rs

/-- The delivery trace the spec describes for a fault-free batch: each
record is attempted to the handles that had not failed on an earlier
record of the batch, and delivered to those of them whose send
returns. -/
def chainLog (sb : Client → Nat → SendR) (cl : List Client) :
    List DbEvent → List LogEntry
  | [] => []
  | r :: rs =>
    let del := cl.filter (fun c => isOk (sb c r.id))
    { rid := r.id, attempted := cl, delivered := del } :: chainLog sb del rs

/-!
### Helper lemmas
-/

theorem sendLoop_no_hang (sb : Client → Nat → SendR) (rid : Nat) :
    ∀ cl : List Client, (∀ c ∈ cl, sb c rid ≠ .hang) →
    sendLoop sb rid cl =
      { attempted := cl,
        delivered := cl.filter (fun c => isOk (sb c rid)),
        disconnected := cl.filter (fun c => isExc (sb c rid)),
        hung := false }
  | [], _ => rfl
  | c :: cs, h => by
    have hc : sb c rid ≠ .hang := h c (List.mem_cons_self c cs)
    have ih := sendLoop_no_hang sb rid cs (fun x hx => h x (List.mem_cons_of_mem c hx))
    cases hsb : sb c rid with
    | hang => exact absurd hsb hc
    | ok => simp [sendLoop, hsb, ih, isOk, isExc, List.filter_cons]
    | exc => simp [sendLoop, hsb, ih, isOk, isExc, List.filter_cons]

theorem pyDifferenceUpdate_exc (sb : Client → Nat → SendR) (rid : Nat)
    (cl : List Client) (h : ∀ c ∈ cl, sb c rid ≠ .hang) :
    pyDifferenceUpdate cl (cl.filter (fun c => isExc (sb c rid))) =
      cl.filter (fun c => isOk (sb c rid)) := by
  unfold pyDifferenceUpdate
  apply List.filter_congr
  intro c hc
  have hnh := h c hc
  cases hsb : sb c rid with
  | hang => exact absurd hsb hnh
  | ok => simp [List.mem_filter, hsb, isOk, isExc, hc]
  | exc => simp [List.mem_filter, hsb, isOk, isExc, hc]

theorem runBatch_wf (sb : Client → Nat → SendR)
    (hh : ∀ c rid, sb c rid ≠ .hang) :
    ∀ (recs : List DbEvent) (cl : List Client),
    (∀ r ∈ recs, r.createdAtOk = true) →
    runBatch sb recs cl = (.done (survivorsList sb cl recs), chainLog sb cl recs)
  | [], cl, _ => rfl
  | r :: rs, cl, hg => by
    have hr : r.createdAtOk = true := hg r (List.mem_cons_self r rs)
    have hs := sendLoop_no_hang sb r.id cl (fun c _ => hh c r.id)
    have hd := pyDifferenceUpdate_exc sb r.id cl (fun c _ => hh c r.id)
    have ih := runBatch_wf sb hh rs (cl.filter (fun c => isOk (sb c r.id)))
      (fun x hx => hg x (List.mem_cons_of_mem r hx))
    simp [runBatch, toMessage, hr, hs, hd, ih, survivorsList, chainLog]

theorem runBatch_append_malformed (sb : Client → Nat → SendR)
    (hh : ∀ c rid, sb c rid ≠ .hang) (bad : DbEvent) (rest : List DbEvent)
    (hb : bad.createdAtOk = false) :
    ∀ (good : List DbEvent) (cl : List Client),
    (∀ r ∈ good, r.createdAtOk = true) →
    runBatch sb (good ++ bad :: rest) cl =
      (.excp (survivorsList sb cl good), chainLog sb cl good)
  | [], cl, _ => by simp [runBatch, toMessage, hb, survivorsList, chainLog]
  | r :: rs, cl, hg => by
    have hr : r.createdAtOk = true := hg r (List.mem_cons_self r rs)
    have hs := sendLoop_no_hang sb r.id cl (fun c _ => hh c r.id)
    have hd := pyDifferenceUpdate_exc sb r.id cl (fun c _ => hh c r.id)
    have ih := runBatch_append_malformed sb hh bad rest hb rs
      (cl.filter (fun c => isOk (sb c r.id)))
      (fun x hx => hg x (List.mem_cons_of_mem r hx))
    simp [runBatch, toMessage, hr, hs, hd, ih, survivorsList, chainLog]

theorem chainLog_map_rid (sb : Client → Nat → SendR) :
    ∀ (recs : List DbEvent) (cl : List Client),
    (chainLog sb cl recs).map LogEntry.rid = recs.map DbEvent.id
  | [], _ => rfl
  | r :: rs, cl => by
    simp [chainLog, chainLog_map_rid sb rs]

theorem chainLog_length (sb : Client → Nat → SendR) :
    ∀ (recs : List DbEvent) (cl : List Client),
    (chainLog sb cl recs).length = recs.length
  | [], _ => rfl
  | r :: rs, cl => by simp [chainLog, chainLog_length sb rs]

theorem chainLog_get_delivered (sb : Client → Nat → SendR) :
    ∀ (recs : List DbEvent) (cl : List Client) (k : Nat)
      (h : k < (chainLog sb cl recs).length),
    ((chainLog sb cl recs).get ⟨k, h⟩).delivered =
      ((chainLog sb cl recs).get ⟨k, h⟩).attempted.filter
        (fun c => isOk (sb c ((chainLog sb cl recs).get ⟨k, h⟩).rid))
  | [], _, k, h => by simp [chainLog] at h
  | r :: rs, cl, 0, _ => rfl
  | r :: rs, cl, k + 1, h => by
    have h' : k < (chainLog sb (cl.filter (fun c => isOk (sb c r.id))) rs).length := by
      simpa [chainLog] using h
    simpa [chainLog] using
      chainLog_get_delivered sb rs (cl.filter (fun c => isOk (sb c r.id))) k h'

theorem chainLog_get_zero_attempted (sb : Client → Nat → SendR)
    (recs : List DbEvent) (cl : List Client)
    (h : 0 < (chainLog sb cl recs).length) :
    ((chainLog sb cl recs).get ⟨0, h⟩).attempted = cl := by
  cases recs with
  | nil => simp [chainLog] at h
  | cons r rs => rfl

theorem chainLog_chain (sb : Client → Nat → SendR) :
    ∀ (recs : List DbEvent) (cl : List Client) (k : Nat)
      (h : k + 1 < (chainLog sb cl recs).length)
      (h' : k < (chainLog sb cl recs).length),
    ((chainLog sb cl recs).get ⟨k + 1, h⟩).attempted =
      ((chainLog sb cl recs).get ⟨k, h'⟩).delivered
  | [], _, k, h, _ => by simp [chainLog] at h
  | r :: rs, cl, 0, h, _ => by
    have h0 : 0 < (chainLog sb (cl.filter (fun c => isOk (sb c r.id))) rs).length := by
      simpa [chainLog] using h
    simpa [chainLog] using
      chainLog_get_zero_attempted sb rs (cl.filter (fun c => isOk (sb c r.id))) h0
  | r :: rs, cl, k + 1, h, h' => by
    have h1 : k + 1 < (chainLog sb (cl.filter (fun c => isOk (sb c r.id))) rs).length := by
      simpa [chainLog] using h
    have h2 : k < (chainLog sb (cl.filter (fun c => isOk (sb c r.id))) rs).length :=
      Nat.lt_of_succ_lt h1
    simpa [chainLog] using
      chainLog_chain sb rs (cl.filter (fun c => isOk (sb c r.id))) k h1 h2

theorem chainLog_delivered_mem_ok (sb : Client → Nat → SendR) (b : Client)
    (hb : ∀ i, sb b i = .ok) :
    ∀ (recs : List DbEvent) (cl : List Client), b ∈ cl →
    ∀ e ∈ chainLog sb cl recs, b ∈ e.delivered
  | [], _, _, e, he => by simp [chainLog] at he
  | r :: rs, cl, hin, e, he => by
    have hdel : b ∈ cl.filter (fun c => isOk (sb c r.id)) := by
      simp [List.mem_filter, hin, hb, isOk]
    rcases (by simpa [chainLog] using he :
        e = ({ rid := r.id, attempted := cl,
               delivered := cl.filter (fun c => isOk (sb c r.id)) } : LogEntry)
          ∨ e ∈ chainLog sb (cl.filter (fun c => isOk (sb c r.id))) rs) with h1 | h2
    · subst h1; exact hdel
    · exact chainLog_delivered_mem_ok sb b hb rs _ hdel e h2

theorem chainLog_not_mem (sb : Client → Nat → SendR) (a : Client) :
    ∀ (recs : List DbEvent) (cl : List Client), a ∉ cl →
    ∀ e ∈ chainLog sb cl recs, a ∉ e.attempted ∧ a ∉ e.delivered
  | [], _, _, e, he => by simp [chainLog] at he
  | r :: rs, cl, hout, e, he => by
    have hdel : a ∉ cl.filter (fun c => isOk (sb c r.id)) := fun hm =>
      hout (List.mem_of_mem_filter hm)
    rcases (by simpa [chainLog] using he :
        e = ({ rid := r.id, attempted := cl,
               delivered := cl.filter (fun c => isOk (sb c r.id)) } : LogEntry)
          ∨ e ∈ chainLog sb (cl.filter (fun c => isOk (sb c r.id))) rs) with h1 | h2
    · subst h1; exact ⟨hout, hdel⟩
    · exact chainLog_not_mem sb a rs _ hdel e h2

theorem survivorsList_subset (sb : Client → Nat → SendR) :
    ∀ (recs : List DbEvent) (cl : List Client), survivorsList sb cl recs ⊆ cl
  | [], cl => by simp [survivorsList]
  | r :: rs, cl => by
    intro a ha
    exact List.filter_subset' cl
      (survivorsList_subset sb rs (cl.filter (fun c => isOk (sb c r.id))) ha)

theorem survivorsList_not_mem (sb : Client → Nat → SendR) (a : Client)
    (recs : List DbEvent) (cl : List Client) (h : a ∉ cl) :
    a ∉ survivorsList sb cl recs :=
  fun hm => h (survivorsList_subset sb recs cl hm)

theorem chainLog_fail_from (sb : Client → Nat → SendR) (a : Client) :
    ∀ (recs : List DbEvent) (cl : List Client) (i k : Nat)
      (hi : i < recs.length) (hk : k < (chainLog sb cl recs).length),
    sb a ((recs.get ⟨i, hi⟩).id) = .exc → i ≤ k →
    a ∉ ((chainLog sb cl recs).get ⟨k, hk⟩).delivered
  | [], _, _, _, hi, _ => by simp at hi
  | r :: rs, cl, 0, 0, hi, hk => by
    intro hf _ hmem
    have hf' : sb a r.id = .exc := hf
    have hmem' : a ∈ cl.filter (fun c => isOk (sb c r.id)) := hmem
    have h2 := (List.mem_filter.mp hmem').2
    simp [hf', isOk] at h2
  | r :: rs, cl, 0, k + 1, hi, hk => by
    intro hf _ hmem
    have hf' : sb a r.id = .exc := hf
    have hnd : a ∉ cl.filter (fun c => isOk (sb c r.id)) := by
      intro hm
      have h2 := (List.mem_filter.mp hm).2
      simp [hf', isOk] at h2
    have hk' : k < (chainLog sb (cl.filter (fun c => isOk (sb c r.id))) rs).length := by
      simpa [chainLog] using hk
    have hin : ((chainLog sb (cl.filter (fun c => isOk (sb c r.id))) rs).get ⟨k, hk'⟩)
        ∈ chainLog sb (cl.filter (fun c => isOk (sb c r.id))) rs := List.get_mem _ _ _
    exact (chainLog_not_mem sb a rs _ hnd _ hin).2 (by simpa [chainLog] using hmem)
  | r :: rs, cl, i + 1, 0, hi, hk => by
    intro _ hik
    exact absurd hik (by omega)
  | r :: rs, cl, i + 1, k + 1, hi, hk => by
    intro hf hik
    have hi' : i < rs.length := by simpa using hi
    have hk' : k < (chainLog sb (cl.filter (fun c => isOk (sb c r.id))) rs).length := by
      simpa [chainLog] using hk
    have hf' : sb a ((rs.get ⟨i, hi'⟩).id) = .exc := by
      simpa [List.get] using hf
    have := chainLog_fail_from sb a rs (cl.filter (fun c => isOk (sb c r.id)))
      i k hi' hk' hf' (by omega)
    simpa [chainLog] using this

theorem survivorsList_fail (sb : Client → Nat → SendR) (a : Client) :
    ∀ (recs : List DbEvent) (cl : List Client) (i : Nat) (hi : i < recs.length),
    sb a ((recs.get ⟨i, hi⟩).id) = .exc → a ∉ survivorsList sb cl recs
  | [], _, _, hi => by simp at hi
  | r :: rs, cl, 0, hi => by
    intro hf
    have hf' : sb a r.id = .exc := hf
    have hnd : a ∉ cl.filter (fun c => isOk (sb c r.id)) := by
      intro hm
      have h2 := (List.mem_filter.mp hm).2
      simp [hf', isOk] at h2
    simpa [survivorsList] using survivorsList_not_mem sb a rs _ hnd
  | r :: rs, cl, i + 1, hi => by
    intro hf
    have hi' : i < rs.length := by simpa using hi
    have hf' : sb a ((rs.get ⟨i, hi'⟩).id) = .exc := hf
    simpa [survivorsList] using
      survivorsList_fail sb a rs (cl.filter (fun c => isOk (sb c r.id))) i hi' hf'

theorem fetchAll_mem_gt (db : List DbEvent) (lastId lim : Nat) :
    ∀ r ∈ fetchAll db lastId lim, lastId < r.id := by
  intro r hr
  have hf : r ∈ db.filter (fun r => decide (lastId < r.id)) :=
    List.take_subset _ _ hr
  exact of_decide_eq_true (List.mem_filter.mp hf).2

theorem fetchAll_length_le (db : List DbEvent) (lastId lim : Nat) :
    (fetchAll db lastId lim).length ≤ lim := by
  simp only [fetchAll]
  exact List.length_take_le _ _

theorem fetchAll_sorted (db : List DbEvent) (lastId lim : Nat)
    (hdb : db.Pairwise (fun a b => a.id < b.id)) :
    (fetchAll db lastId lim).Pairwise (fun a b => a.id < b.id) :=
  (hdb.filter _).take

theorem lastRowId_cons_cons (r s : DbEvent) (t : List DbEvent) :
    lastRowId (r :: s :: t) = lastRowId (s :: t) := by
  simp [lastRowId, List.getLast?_cons_cons]

theorem lastRowId_mem : ∀ evs : List DbEvent, evs ≠ [] →
    ∃ r ∈ evs, r.id = lastRowId evs
  | [], h => absurd rfl h
  | [r], _ => ⟨r, by simp, by simp [lastRowId]⟩
  | r :: s :: t, _ => by
    obtain ⟨x, hx, he⟩ := lastRowId_mem (s :: t) (by simp)
    exact ⟨x, List.mem_cons_of_mem r hx, by rw [lastRowId_cons_cons]; exact he⟩

theorem sendLoop_subsets (sb : Client → Nat → SendR) (rid : Nat) :
    ∀ cl : List Client,
    (sendLoop sb rid cl).attempted ⊆ cl ∧ (sendLoop sb rid cl).delivered ⊆ cl ∧
      (sendLoop sb rid cl).disconnected ⊆ cl
  | [] => by simp [sendLoop]
  | c :: cs => by
    obtain ⟨h1, h2, h3⟩ := sendLoop_subsets sb rid cs
    have hcs : cs ⊆ c :: cs := fun x hx => List.mem_cons_of_mem c hx
    cases hsb : sb c rid with
    | hang =>
      simp only [sendLoop, hsb]
      exact ⟨by simp, by simp, by simp⟩
    | ok =>
      simp only [sendLoop, hsb]
      exact ⟨List.cons_subset.mpr ⟨List.mem_cons_self c cs, h1.trans hcs⟩,
             List.cons_subset.mpr ⟨List.mem_cons_self c cs, h2.trans hcs⟩,
             h3.trans hcs⟩
    | exc =>
      simp only [sendLoop, hsb]
      exact ⟨List.cons_subset.mpr ⟨List.mem_cons_self c cs, h1.trans hcs⟩,
             h2.trans hcs,
             List.cons_subset.mpr ⟨List.mem_cons_self c cs, h3.trans hcs⟩⟩

theorem pyDifferenceUpdate_subset (cl d : List Client) :
    pyDifferenceUpdate cl d ⊆ cl :=
  List.filter_subset' cl

/-- The registry carried in a batch outcome (with a fallback for the
hung case, in which the loop never returns a registry). -/
def batchClients (o : BatchOut) (dflt : List Client) : List Client :=
  match o with
  | .done c => c
  | .excp c => c
  | .hung => dflt

theorem runBatch_clients_subset (sb : Client → Nat → SendR) :
    ∀ (recs : List DbEvent) (cl : List Client),
    batchClients (runBatch sb recs cl).1 cl ⊆ cl
  | [], cl => by simp [runBatch, batchClients]
  | r :: rs, cl => by
    rcases hm : toMessage r with _ | m
    · simp [runBatch, hm, batchClients]
    · by_cases hp : (sendLoop sb r.id cl).hung
      · simp [runBatch, hm, hp, batchClients]
      · have ih := runBatch_clients_subset sb rs
          (pyDifferenceUpdate cl (sendLoop sb r.id cl).disconnected)
        have hsub := pyDifferenceUpdate_subset cl (sendLoop sb r.id cl).disconnected
        rcases hres : runBatch sb rs (pyDifferenceUpdate cl (sendLoop sb r.id cl).disconnected)
          with ⟨o, lg2⟩
        rw [hres] at ih
        cases o with
        | done c2 => simpa [runBatch, hm, hp, hres, batchClients] using ih.trans hsub
        | excp c2 => simpa [runBatch, hm, hp, hres, batchClients] using ih.trans hsub
        | hung => simp [runBatch, hm, hp, hres, batchClients]

theorem runBatch_log_subset (sb : Client → Nat → SendR) :
    ∀ (recs : List DbEvent) (cl : List Client) (e : LogEntry),
    e ∈ (runBatch sb recs cl).2 → e.delivered ⊆ cl
  | [], cl, e, he => by simp [runBatch] at he
  | r :: rs, cl, e, he => by
    rcases hm : toMessage r with _ | m
    · simp [runBatch, hm] at he
    · by_cases hp : (sendLoop sb r.id cl).hung
      · simp [runBatch, hm, hp] at he
        rw [he]
        exact (sendLoop_subsets sb r.id cl).2.1
      · rcases hres : runBatch sb rs (pyDifferenceUpdate cl (sendLoop sb r.id cl).disconnected)
          with ⟨o, lg2⟩
        have hsub := pyDifferenceUpdate_subset cl (sendLoop sb r.id cl).disconnected
        rcases (by simpa [runBatch, hm, hp, hres] using he :
            e = ({ rid := r.id, attempted := (sendLoop sb r.id cl).attempted,
                   delivered := (sendLoop sb r.id cl).delivered } : LogEntry) ∨ e ∈ lg2)
          with h1 | h2
        · rw [h1]
          exact (sendLoop_subsets sb r.id cl).2.1
        · exact (runBatch_log_subset sb rs _ e (by rw [hres]; exact h2)).trans hsub

theorem pollCycle_fetch_fail (db : List DbEvent) (sb : Client → Nat → SendR)
    (st : St) : pollCycle db false sb st = .next st [] := by
  simp [pollCycle]

theorem pollCycle_done (db : List DbEvent) (sb : Client → Nat → SendR) (st : St)
    (cl : List Client) (lg : List LogEntry)
    (hne : (fetchAll db st.lastEventId MAX_EVENTS_PER_POLL).isEmpty = false)
    (hrb : runBatch sb (fetchAll db st.lastEventId MAX_EVENTS_PER_POLL) st.clients
      = (.done cl, lg)) :
    pollCycle db true sb st =
      .next { lastEventId := lastRowId (fetchAll db st.lastEventId MAX_EVENTS_PER_POLL),
              clients := cl } lg := by
  simp [pollCycle, hne, hrb]

theorem pollCycle_excp (db : List DbEvent) (sb : Client → Nat → SendR) (st : St)
    (cl : List Client) (lg : List LogEntry)
    (hne : (fetchAll db st.lastEventId MAX_EVENTS_PER_POLL).isEmpty = false)
    (hrb : runBatch sb (fetchAll db st.lastEventId MAX_EVENTS_PER_POLL) st.clients
      = (.excp cl, lg)) :
    pollCycle db true sb st = .next { lastEventId := st.lastEventId, clients := cl } lg := by
  simp [pollCycle, hne, hrb]

theorem pollCycle_hung (db : List DbEvent) (sb : Client → Nat → SendR) (st : St)
    (lg : List LogEntry)
    (hne : (fetchAll db st.lastEventId MAX_EVENTS_PER_POLL).isEmpty = false)
    (hrb : runBatch sb (fetchAll db st.lastEventId MAX_EVENTS_PER_POLL) st.clients
      = (.hung, lg)) :
    pollCycle db true sb st = .stuck lg := by
  simp [pollCycle, hne, hrb]

theorem pollCycle_cursor_mono (db : List DbEvent) (fOk : Bool)
    (sb : Client → Nat → SendR) (st st' : St) (lg : List LogEntry)
    (h : pollCycle db fOk sb st = .next st' lg) :
    st.lastEventId ≤ st'.lastEventId := by
  cases fOk with
  | false =>
    simp [pollCycle] at h
    rw [← h.1]
  | true =>
    rw [pollCycle] at h
    by_cases he : (fetchAll db st.lastEventId MAX_EVENTS_PER_POLL).isEmpty
    · simp [he] at h
      rw [← h.1]
    · simp [he] at h
      rcases hres : runBatch sb (fetchAll db st.lastEventId MAX_EVENTS_PER_POLL) st.clients
        with ⟨o, lg2⟩
      rw [hres] at h
      cases o with
      | done c2 =>
        simp at h
        have hne : fetchAll db st.lastEventId MAX_EVENTS_PER_POLL ≠ [] := by
          simpa [List.isEmpty_iff] using he
        obtain ⟨r, hr, hid⟩ := lastRowId_mem _ hne
        have hgt := fetchAll_mem_gt db st.lastEventId MAX_EVENTS_PER_POLL r hr
        rw [← h.1]
        simp only []
        omega
      | excp c2 =>
        simp at h
        rw [← h.1]
      | hung => simp at h

theorem pollCycle_clients_subset (db : List DbEvent) (fOk : Bool)
    (sb : Client → Nat → SendR) (st st' : St) (lg : List LogEntry)
    (h : pollCycle db fOk sb st = .next st' lg) :
    st'.clients ⊆ st.clients := by
  cases fOk with
  | false =>
    simp [pollCycle] at h
    rw [← h.1]
    exact fun x hx => hx
  | true =>
    rw [pollCycle] at h
    by_cases he : (fetchAll db st.lastEventId MAX_EVENTS_PER_POLL).isEmpty
    · simp [he] at h
      rw [← h.1]
      exact fun x hx => hx
    · simp [he] at h
      have hcs := runBatch_clients_subset sb (fetchAll db st.lastEventId MAX_EVENTS_PER_POLL)
        st.clients
      rcases hres : runBatch sb (fetchAll db st.lastEventId MAX_EVENTS_PER_POLL) st.clients
        with ⟨o, lg2⟩
      rw [hres] at h hcs
      cases o with
      | done c2 =>
        simp at h
        rw [← h.1]
        simpa [batchClients] using hcs
      | excp c2 =>
        simp at h
        rw [← h.1]
        simpa [batchClients] using hcs
      | hung => simp at h

theorem pollCycle_next_log_subset (db : List DbEvent) (fOk : Bool)
    (sb : Client → Nat → SendR) (st st' : St) (lg : List LogEntry)
    (h : pollCycle db fOk sb st = .next st' lg) :
    ∀ e ∈ lg, e.delivered ⊆ st.clients := by
  cases fOk with
  | false =>
    simp [pollCycle] at h
    rw [h.2]
    intro e he
    simp at he
  | true =>
    rw [pollCycle] at h
    by_cases he : (fetchAll db st.lastEventId MAX_EVENTS_PER_POLL).isEmpty
    · simp [he] at h
      rw [h.2]
      intro e he2
      simp at he2
    · simp [he] at h
      have hls := runBatch_log_subset sb (fetchAll db st.lastEventId MAX_EVENTS_PER_POLL)
        st.clients
      rcases hres : runBatch sb (fetchAll db st.lastEventId MAX_EVENTS_PER_POLL) st.clients
        with ⟨o, lg2⟩
      rw [hres] at h hls
      cases o with
      | done c2 =>
        simp at h
        rw [← h.2]
        exact fun e he2 => hls e he2
      | excp c2 =>
        simp at h
        rw [← h.2]
        exact fun e he2 => hls e he2
      | hung => simp at h

theorem pollCycle_stuck_log_subset (db : List DbEvent) (fOk : Bool)
    (sb : Client → Nat → SendR) (st : St) (lg : List LogEntry)
    (h : pollCycle db fOk sb st = .stuck lg) :
    ∀ e ∈ lg, e.delivered ⊆ st.clients := by
  cases fOk with
  | false => simp [pollCycle] at h
  | true =>
    rw [pollCycle] at h
    by_cases he : (fetchAll db st.lastEventId MAX_EVENTS_PER_POLL).isEmpty
    · simp [he] at h
    · simp [he] at h
      have hls := runBatch_log_subset sb (fetchAll db st.lastEventId MAX_EVENTS_PER_POLL)
        st.clients
      rcases hres : runBatch sb (fetchAll db st.lastEventId MAX_EVENTS_PER_POLL) st.clients
        with ⟨o, lg2⟩
      rw [hres] at h hls
      cases o with
      | done c2 => simp at h
      | excp c2 => simp at h
      | hung =>
        simp at h
        rw [← h]
        exact fun e he2 => hls e he2

theorem pyAdd_not_mem (cl : List Client) (w a : Client) (ha : a ∉ cl) (hw : a ≠ w) :
    a ∉ pyAdd cl w := by
  unfold pyAdd
  by_cases h : w ∈ cl
  · simp [h, ha]
  · simp [h, List.mem_append, ha, hw]

theorem pyAddAll_not_mem (a : Client) :
    ∀ (ws cl : List Client), a ∉ cl → a ∉ ws → a ∉ pyAddAll cl ws
  | [], _, h, _ => h
  | w :: ws, cl, h, hws => by
    have hw : a ≠ w := fun he => hws (he ▸ List.mem_cons_self w ws)
    have h2 : a ∉ pyAdd cl w := pyAdd_not_mem cl w a h hw
    exact pyAddAll_not_mem a ws (pyAdd cl w) h2 (fun hm => hws (List.mem_cons_of_mem w hm))

theorem runCycles_cursor_mono (db : List DbEvent) :
    ∀ (envs : List Env) (st st' : St) (lgs : List (List LogEntry)),
    runCycles db envs st = .fin st' lgs → st.lastEventId ≤ st'.lastEventId
  | [], st, st', lgs, h => by
    simp [runCycles] at h
    rw [← h.1]
  | e :: es, st, st', lgs, h => by
    rw [runCycles] at h
    cases hpc : pollCycle db e.fetchOk e.sb { st with clients := pyAddAll st.clients e.joins } with
    | next st1 lg =>
      rw [hpc] at h
      simp at h
      cases hrc : runCycles db es st1 with
      | fin st2 lgs2 =>
        rw [hrc] at h
        simp at h
        have h1 : st.lastEventId ≤ st1.lastEventId :=
          pollCycle_cursor_mono db e.fetchOk e.sb
            { st with clients := pyAddAll st.clients e.joins } st1 lg hpc
        have h2 := runCycles_cursor_mono db es st1 st2 lgs2 hrc
        rw [← h.1]
        omega
      | stuck lgs2 =>
        rw [hrc] at h
        simp at h
    | stuck lg =>
      rw [hpc] at h
      simp at h

theorem runCycles_avoid (db : List DbEvent) (a : Client) :
    ∀ (envs : List Env) (st : St), a ∉ st.clients → (∀ e ∈ envs, a ∉ e.joins) →
    (∀ st' lgs, runCycles db envs st = .fin st' lgs →
        (∀ l ∈ lgs, ∀ en ∈ l, a ∉ en.delivered) ∧ a ∉ st'.clients) ∧
    (∀ lgs, runCycles db envs st = .stuck lgs →
        ∀ l ∈ lgs, ∀ en ∈ l, a ∉ en.delivered)
  | [], st, ha, _ => by
    constructor
    · intro st' lgs h
      simp [runCycles] at h
      constructor
      · rw [h.2]
        intro l hl
        simp at hl
      · rw [← h.1]
        exact ha
    · intro lgs h
      simp [runCycles] at h
  | e :: es, st, ha, hj => by
    have ha0 : a ∉ pyAddAll st.clients e.joins :=
      pyAddAll_not_mem a e.joins st.clients ha (hj e (List.mem_cons_self e es))
    have hj' : ∀ x ∈ es, a ∉ x.joins := fun x hx => hj x (List.mem_cons_of_mem e hx)
    constructor
    · intro st' lgs h
      rw [runCycles] at h
      cases hpc : pollCycle db e.fetchOk e.sb { st with clients := pyAddAll st.clients e.joins } with
      | next st1 lg =>
        rw [hpc] at h
        simp at h
        have hlg : ∀ en ∈ lg, a ∉ en.delivered := fun en hen hmem =>
          ha0 (pollCycle_next_log_subset db e.fetchOk e.sb _ st1 lg hpc en hen hmem)
        have ha1 : a ∉ st1.clients := fun hm =>
          ha0 (pollCycle_clients_subset db e.fetchOk e.sb _ st1 lg hpc hm)
        cases hrc : runCycles db es st1 with
        | fin st2 lgs2 =>
          rw [hrc] at h
          simp at h
          obtain ⟨ih, _⟩ := runCycles_avoid db a es st1 ha1 hj'
          obtain ⟨ihl, ihc⟩ := ih st2 lgs2 hrc
          constructor
          · rw [← h.2]
            intro l hl
            rcases List.mem_cons.mp hl with h1 | h2
            · rw [h1]; exact hlg
            · exact ihl l h2
          · rw [← h.1]
            exact ihc
        | stuck lgs2 =>
          rw [hrc] at h
          simp at h
      | stuck lg =>
        rw [hpc] at h
        simp at h
    · intro lgs h
      rw [runCycles] at h
      cases hpc : pollCycle db e.fetchOk e.sb { st with clients := pyAddAll st.clients e.joins } with
      | next st1 lg =>
        rw [hpc] at h
        simp at h
        have hlg : ∀ en ∈ lg, a ∉ en.delivered := fun en hen hmem =>
          ha0 (pollCycle_next_log_subset db e.fetchOk e.sb _ st1 lg hpc en hen hmem)
        have ha1 : a ∉ st1.clients := fun hm =>
          ha0 (pollCycle_clients_subset db e.fetchOk e.sb _ st1 lg hpc hm)
        cases hrc : runCycles db es st1 with
        | fin st2 lgs2 =>
          rw [hrc] at h
          simp at h
        | stuck lgs2 =>
          rw [hrc] at h
          simp at h
          obtain ⟨_, ih⟩ := runCycles_avoid db a es st1 ha1 hj'
          have ihl := ih lgs2 hrc
          rw [← h]
          intro l hl
          rcases List.mem_cons.mp hl with h1 | h2
          · rw [h1]; exact hlg
          · exact ihl l h2
      | stuck lg =>
        rw [hpc] at h
        have hlg : ∀ en ∈ lg, a ∉ en.delivered := fun en hen hmem =>
          ha0 (pollCycle_stuck_log_subset db e.fetchOk e.sb _ lg hpc en hen hmem)
        simp at h
        rw [← h]
        intro l hl
        rcases List.mem_singleton.mp hl with h1
        rw [h1]
        exact hlg

theorem lastRowId_max : ∀ evs : List DbEvent,
    evs.Pairwise (fun a b => a.id < b.id) → ∀ r ∈ evs, r.id ≤ lastRowId evs
  | [], _, r, hr => absurd hr (by simp)
  | [x], _, r, hr => by
    rw [List.mem_singleton] at hr
    subst hr
    simp [lastRowId]
  | x :: s :: t, hp, r, hr => by
    rw [lastRowId_cons_cons]
    rcases List.mem_cons.mp hr with h1 | h2
    · subst h1
      obtain ⟨y, hy, he⟩ := lastRowId_mem (s :: t) (by simp)
      have : r.id < y.id := (List.pairwise_cons.mp hp).1 y hy
      omega
    · exact lastRowId_max (s :: t) (List.pairwise_cons.mp hp).2 r h2

theorem pyAddAll_nil (cl : List Client) : pyAddAll cl [] = cl := rfl

theorem pyDifferenceUpdate_nil (cl : List Client) :
    pyDifferenceUpdate cl [] = cl := by
  simp [pyDifferenceUpdate]

theorem survivorsList_allok (sb : Client → Nat → SendR)
    (hok : ∀ c i, sb c i = .ok) :
    ∀ (recs : List DbEvent) (cl : List Client), survivorsList sb cl recs = cl
  | [], cl => rfl
  | r :: rs, cl => by
    have hf : cl.filter (fun c => isOk (sb c r.id)) = cl :=
      List.filter_eq_self.mpr (fun c _ => by simp [hok, isOk])
    simp only [survivorsList, hf]
    exact survivorsList_allok sb hok rs cl

theorem chainLog_allok (sb : Client → Nat → SendR)
    (hok : ∀ c i, sb c i = .ok) :
    ∀ (recs : List DbEvent) (cl : List Client),
    chainLog sb cl recs =
      recs.map (fun r => { rid := r.id, attempted := cl, delivered := cl })
  | [], cl => rfl
  | r :: rs, cl => by
    have hf : cl.filter (fun c => isOk (sb c r.id)) = cl :=
      List.filter_eq_self.mpr (fun c _ => by simp [hok, isOk])
    simp only [chainLog, hf, List.map_cons]
    rw [chainLog_allok sb hok rs cl]

theorem sendLoop_hang_split (sb : Client → Nat → SendR) (rid : Nat) (a : Client)
    (ha : sb a rid = .hang) :
    ∀ pre : List Client, (∀ c ∈ pre, sb c rid ≠ .hang) → ∀ post : List Client,
    sendLoop sb rid (pre ++ a :: post) =
      { attempted := pre ++ [a],
        delivered := pre.filter (fun c => isOk (sb c rid)),
        disconnected := pre.filter (fun c => isExc (sb c rid)),
        hung := true }
  | [], _, post => by simp [sendLoop, ha]
  | c :: pre, h, post => by
    have hc : sb c rid ≠ .hang := h c (List.mem_cons_self c pre)
    have ih := sendLoop_hang_split sb rid a ha pre
      (fun x hx => h x (List.mem_cons_of_mem c hx)) post
    cases hsb : sb c rid with
    | hang => exact absurd hsb hc
    | ok => simp [sendLoop, hsb, ih, isOk, isExc, List.filter_cons]
    | exc => simp [sendLoop, hsb, ih, isOk, isExc, List.filter_cons]

theorem runBatchM_aborts (sb : Client → Nat → SendR) (w : Client)
    (hok : ∀ c i, sb c i = .ok) :
    ∀ (recs : List DbEvent) (cl : List Client) (ri : Nat), ri < recs.length →
    (∀ r ∈ recs, r.createdAtOk = true) →
    ∃ lg2, runBatchM sb ri w recs cl = (.excp (pyAdd cl w), lg2) ∧
      lg2.length = ri + 1
  | [], _, ri, hri, _ => by simp at hri
  | r :: rs, cl, 0, _, hg => by
    have hr : r.createdAtOk = true := hg r (List.mem_cons_self r rs)
    exact ⟨[{ rid := r.id, attempted := cl.take 1,
              delivered := (sendLoop sb r.id (cl.take 1)).delivered }],
           by simp [runBatchM, toMessage, hr], by simp⟩
  | r :: rs, cl, ri + 1, hri, hg => by
    have hr : r.createdAtOk = true := hg r (List.mem_cons_self r rs)
    have hs := sendLoop_no_hang sb r.id cl (fun c _ => by simp [hok])
    have hdis : cl.filter (fun c => isExc (sb c r.id)) = [] := by
      apply List.filter_eq_nil_iff.mpr
      intro c _
      simp [hok, isExc]
    have hri' : ri < rs.length := by simpa using hri
    obtain ⟨lg2, hlg2, hlen⟩ := runBatchM_aborts sb w hok rs cl ri hri'
      (fun x hx => hg x (List.mem_cons_of_mem r hx))
    refine ⟨{ rid := r.id, attempted := cl,
              delivered := cl.filter (fun c => isOk (sb c r.id)) } :: lg2, ?_, ?_⟩
    · simp [runBatchM, toMessage, hr, hs, hdis, pyDifferenceUpdate_nil, hlg2]
    · simp [hlen]

theorem runCycles_cons (db : List DbEvent) (e : Env) (es : List Env) (st : St) :
    runCycles db (e :: es) st =
      match pollCycle db e.fetchOk e.sb { st with clients := pyAddAll st.clients e.joins } with
      | .next st1 lg =>
        match runCycles db es st1 with
        | .fin st2 lgs => .fin st2 (lg :: lgs)
        | .stuck lgs => .stuck (lg :: lgs)
      | .stuck lg => .stuck [lg] := rfl

/-!
### Concrete fixtures used by counterexamples and witnesses
-/

/-- A well-formed `db_events` row with the given id. -/
def okRec (n : Nat) : DbEvent :=
  { id := n, entity := "orders", eventType := "insert", payload := "p",
    createdAtOk := true, createdAtIso := "t" }

/-- A malformed `db_events` row with the given id (its `created_at`
value does not convert, so building the wire message raises). -/
def badRec (n : Nat) : DbEvent :=
  { id := n, entity := "orders", eventType := "insert", payload := "p",
    createdAtOk := false, createdAtIso := "" }

/-- Send behaviour in which every `send_json` returns normally. -/
def sbOk : Client → Nat → SendR := fun _ _ => .ok

/-!
### Claim theorems
-/

/-- C5: for every poll cycle in which the query against the log fails,
the failure is logged, the cursor is left unchanged, no message is
delivered to any subscriber, and the polling loop continues to the next
scheduled cycle — a query failure is never fatal to the loop. -/
theorem C5_query_failure_nonfatal (db : List DbEvent) (sb : Client → Nat → SendR)
    (st : St) :
    pollCycle db false sb st = .next st []
    ∧ (∀ envs st2 lgs, runCycles db envs st = .fin st2 lgs →
        runCycles db ({ joins := [], fetchOk := false, sb := sb } :: envs) st
          = .fin st2 ([] :: lgs))
    ∧ (∀ envs lgs, runCycles db envs st = .stuck lgs →
        runCycles db ({ joins := [], fetchOk := false, sb := sb } :: envs) st
          = .stuck ([] :: lgs)) := by
  have hst0 : ({ st with clients := pyAddAll st.clients [] } : St) = st := rfl
  refine ⟨pollCycle_fetch_fail db sb st, ?_, ?_⟩
  · intro envs st2 lgs h
    rw [runCycles_cons]
    simp only [hst0, pollCycle_fetch_fail, h]
  · intro envs lgs h
    rw [runCycles_cons]
    simp only [hst0, pollCycle_fetch_fail, h]

/-- C5 witness: the theorem instantiated at a one-row table, one
subscriber, and an empty remainder of the schedule. -/
theorem C5_query_failure_nonfatal_witness :
    pollCycle [okRec 1] false sbOk { lastEventId := 0, clients := [7] } =
      .next { lastEventId := 0, clients := [7] } []
    ∧ runCycles [okRec 1] [{ joins := [], fetchOk := false, sb := sbOk }]
        { lastEventId := 0, clients := [7] }
      = .fin { lastEventId := 0, clients := [7] } [[]] := by
  have h := C5_query_failure_nonfatal [okRec 1] sbOk { lastEventId := 0, clients := [7] }
  exact ⟨h.1, h.2.1 [] { lastEventId := 0, clients := [7] } [] rfl⟩

/-- C8: removing a handle from the subscriber registry is idempotent:
for a handle not present, `discard` is a no-op that raises no error and
leaves membership unchanged, so the lifecycle removal on disconnect and
the broadcaster removal on send failure may both remove the same handle
safely in either order. -/
theorem C8_idempotent_remove (cl : List Client) (w : Client) :
    (w ∉ cl → pyDiscard cl w = cl)
    ∧ (cl.Nodup → pyDiscard (pyDiscard cl w) w = pyDiscard cl w)
    ∧ (cl.Nodup → pyDifferenceUpdate (pyDiscard cl w) [w] = pyDiscard cl w) := by
  refine ⟨fun h => List.erase_of_not_mem h, fun hnd => ?_, fun hnd => ?_⟩
  · have hw : w ∉ pyDiscard cl w := fun hm =>
      (((List.Nodup.mem_erase_iff hnd).mp hm).1) rfl
    exact List.erase_of_not_mem hw
  · unfold pyDifferenceUpdate
    apply List.filter_eq_self.mpr
    intro c hc
    have hcw : c ≠ w := ((List.Nodup.mem_erase_iff hnd).mp hc).1
    simp [hcw]

/-- C8 witness: removal of the absent handle 3 is a no-op, and removing
the same handle 1 twice (or once by each removal path) is safe. -/
theorem C8_idempotent_remove_witness :
    pyDiscard [1, 2] 3 = [1, 2]
    ∧ pyDiscard (pyDiscard [1, 2] 1) 1 = pyDiscard [1, 2] 1
    ∧ pyDifferenceUpdate (pyDiscard [1, 2] 1) [1] = pyDiscard [1, 2] 1 :=
  ⟨(C8_idempotent_remove [1, 2] 3).1 (by decide),
   (C8_idempotent_remove [1, 2] 1).2.1 (by decide),
   (C8_idempotent_remove [1, 2] 1).2.2 (by decide)⟩

/-- C9: for every execution of a subscriber's connection-lifecycle task,
on receive-loop termination for any reason the handle is removed from
the registry on every exit path (the removal sits in the `finally`
clause), and no other handle's membership is disturbed. -/
theorem C9_lifecycle_removal (cl : List Client) (w : Client) (hnd : cl.Nodup)
    (cause : ExitCause) :
    w ∉ websocketEndpoint cl w cause
    ∧ (∀ v, v ≠ w → (v ∈ websocketEndpoint cl w cause ↔ v ∈ cl)) := by
  have hys : websocketEndpoint cl w cause = (pyAdd cl w).erase w := by
    cases cause <;> rfl
  have hnd1 : (pyAdd cl w).Nodup := by
    unfold pyAdd
    by_cases h : w ∈ cl
    · simp [h, hnd]
    · simp [h, List.nodup_append, hnd]
  constructor
  · rw [hys]
    exact fun hm => (((List.Nodup.mem_erase_iff hnd1).mp hm).1) rfl
  · intro v hv
    rw [hys, List.mem_erase_of_ne hv]
    unfold pyAdd
    by_cases h : w ∈ cl
    · simp [h]
    · simp [h, hv]

/-- C9 witness: a transport-reset exit still removes handle 2 and leaves
handle 1 registered. -/
theorem C9_lifecycle_removal_witness :
    (2 : Client) ∉ websocketEndpoint [1] 2 ExitCause.transportReset
    ∧ ((1 : Client) ∈ websocketEndpoint [1] 2 ExitCause.transportReset ↔
        (1 : Client) ∈ [(1 : Client)]) := by
  have h := C9_lifecycle_removal [1] 2 (by decide) ExitCause.transportReset
  exact ⟨h.1, h.2 1 (by decide)⟩

/-- C1 counterexample: a poll cycle whose query returns k = 1 > 0
records (the single malformed row with id 1) leaves `last_event_id` at 0,
not at the batch maximum 1 — building the wire message raises, the outer
`except` catches it, and the assignment `last_event_id = new_events[-1]["id"]`
is never reached.  This refutes the claim's unconditional "after a cycle
whose query returns k>0 records it equals the maximum id in that batch". -/
theorem C1_counterexample :
    fetchAll [badRec 1] 0 MAX_EVENTS_PER_POLL = [badRec 1]
    ∧ pollCycle [badRec 1] true sbOk { lastEventId := 0, clients := [7] }
      = .next { lastEventId := 0, clients := [7] } [] := by
  constructor <;> decide

/-- C1 (amended): `last_event_id` is monotonically non-decreasing across
every poll cycle and every sequence of poll cycles; after a cycle whose
query fails, or returns zero records, or whose broadcast loop raises
(malformed record), it is unchanged; after a cycle whose query returns
k>0 records and whose broadcast loop completes, it equals the maximum id
in that batch. -/
theorem C1_cursor_monotonic (db : List DbEvent)
    (hs : db.Pairwise (fun a b => a.id < b.id))
    (fOk : Bool) (sb : Client → Nat → SendR) (st st' : St) (lg : List LogEntry)
    (hc : pollCycle db fOk sb st = .next st' lg) :
    st.lastEventId ≤ st'.lastEventId
    ∧ (∀ envs stF lgs, runCycles db envs st = .fin stF lgs →
        st.lastEventId ≤ stF.lastEventId)
    ∧ (fOk = false → st'.lastEventId = st.lastEventId)
    ∧ (fetchAll db st.lastEventId MAX_EVENTS_PER_POLL = [] →
        st'.lastEventId = st.lastEventId)
    ∧ (∀ cl lg2, runBatch sb (fetchAll db st.lastEventId MAX_EVENTS_PER_POLL) st.clients
          = (.excp cl, lg2) → st'.lastEventId = st.lastEventId)
    ∧ (∀ cl lg2, fOk = true →
        runBatch sb (fetchAll db st.lastEventId MAX_EVENTS_PER_POLL) st.clients
          = (.done cl, lg2) →
        fetchAll db st.lastEventId MAX_EVENTS_PER_POLL ≠ [] →
        st'.lastEventId ∈ (fetchAll db st.lastEventId MAX_EVENTS_PER_POLL).map DbEvent.id
        ∧ ∀ i ∈ (fetchAll db st.lastEventId MAX_EVENTS_PER_POLL).map DbEvent.id,
            i ≤ st'.lastEventId) := by
  refine ⟨pollCycle_cursor_mono db fOk sb st st' lg hc,
          fun envs stF lgs h => runCycles_cursor_mono db envs st stF lgs h,
          ?_, ?_, ?_, ?_⟩
  · intro hf
    subst hf
    rw [pollCycle_fetch_fail db sb st] at hc
    cases hc
    rfl
  · intro he
    cases fOk with
    | false =>
      rw [pollCycle_fetch_fail db sb st] at hc
      cases hc
      rfl
    | true =>
      have he' : (fetchAll db st.lastEventId MAX_EVENTS_PER_POLL).isEmpty = true := by
        simp [he]
      rw [pollCycle] at hc
      simp [he'] at hc
      rw [← hc.1]
  · intro cl lg2 hrb
    cases fOk with
    | false =>
      rw [pollCycle_fetch_fail db sb st] at hc
      cases hc
      rfl
    | true =>
      by_cases he : (fetchAll db st.lastEventId MAX_EVENTS_PER_POLL).isEmpty
      · rw [pollCycle] at hc
        simp [he] at hc
        rw [← hc.1]
      · rw [pollCycle_excp db sb st cl lg2 (by simpa using he) hrb] at hc
        cases hc
        rfl
  · intro cl lg2 hf hrb hne
    subst hf
    have he : (fetchAll db st.lastEventId MAX_EVENTS_PER_POLL).isEmpty = false := by
      simpa using hne
    rw [pollCycle_done db sb st cl lg2 he hrb] at hc
    cases hc
    have hsorted := fetchAll_sorted db st.lastEventId MAX_EVENTS_PER_POLL hs
    obtain ⟨r, hr, hid⟩ := lastRowId_mem _ hne
    constructor
    · exact List.mem_map.mpr ⟨r, hr, hid⟩
    · intro i hi
      obtain ⟨x, hx, hix⟩ := List.mem_map.mp hi
      rw [← hix]
      exact lastRowId_max _ hsorted x hx

/-- C1 witness: a one-row table with a well-formed record; the cursor
moves from 0 to the batch maximum 1. -/
theorem C1_cursor_monotonic_witness :
    ((1 : Nat) ∈ (fetchAll [okRec 1] 0 MAX_EVENTS_PER_POLL).map DbEvent.id
      ∧ ∀ i ∈ (fetchAll [okRec 1] 0 MAX_EVENTS_PER_POLL).map DbEvent.id, i ≤ 1)
    ∧ (0 : Nat) ≤ 1 := by
  have h := C1_cursor_monotonic [okRec 1] (by simp) true sbOk
    { lastEventId := 0, clients := [7] } { lastEventId := 1, clients := [7] }
    [{ rid := 1, attempted := [7], delivered := [7] }] (by decide)
  exact ⟨h.2.2.2.2.2 [7] [{ rid := 1, attempted := [7], delivered := [7] }]
    rfl (by decide) (by decide), h.1⟩

/-- C2 counterexample: a batch `[ok id 1, malformed id 2, ok id 3]` with
one subscriber.  The claim says record 3 is still delivered and the
cursor advances past id 2; in the code the malformed record's
`isoformat()` raises out of the `for event in new_events` loop, so the
cycle ends with only record 1 delivered (the trace has a single entry)
and the cursor still at 0. -/
theorem C2_counterexample :
    pollCycle [okRec 1, badRec 2, okRec 3] true sbOk
        { lastEventId := 0, clients := [7] }
      = .next { lastEventId := 0, clients := [7] }
          [{ rid := 1, attempted := [7], delivered := [7] }] := by
  decide

/-- C2 (amended): a malformed record aborts the poll cycle at that
record: the records before it in the batch are delivered, it and every
later record of the batch are not, and the cursor does not advance (so
the same records — including the poison record — are refetched on the
next cycle; the feed stalls on it rather than skipping it). -/
theorem C2_malformed_aborts_cycle (db : List DbEvent) (st : St)
    (sb : Client → Nat → SendR)
    (good : List DbEvent) (bad : DbEvent) (rest : List DbEvent)
    (hf : fetchAll db st.lastEventId MAX_EVENTS_PER_POLL = good ++ bad :: rest)
    (hg : ∀ r ∈ good, r.createdAtOk = true) (hb : bad.createdAtOk = false)
    (hh : ∀ c i, sb c i ≠ .hang) :
    pollCycle db true sb st =
      .next { lastEventId := st.lastEventId,
              clients := survivorsList sb st.clients good }
        (chainLog sb st.clients good)
    ∧ (chainLog sb st.clients good).map LogEntry.rid = good.map DbEvent.id := by
  have hrb := runBatch_append_malformed sb hh bad rest hb good st.clients hg
  have hne : (fetchAll db st.lastEventId MAX_EVENTS_PER_POLL).isEmpty = false := by
    rw [hf]
    simp
  constructor
  · exact pollCycle_excp db sb st _ _ hne (by rw [hf]; exact hrb)
  · exact chainLog_map_rid sb good st.clients

/-- C2 witness: the amended behaviour at the concrete batch
`[ok id 1, malformed id 2, ok id 3]`. -/
theorem C2_malformed_aborts_cycle_witness :
    pollCycle [okRec 1, badRec 2, okRec 3] true sbOk
        { lastEventId := 0, clients := [7] }
      = .next { lastEventId := 0,
                clients := survivorsList sbOk [7] [okRec 1] }
          (chainLog sbOk [7] [okRec 1])
    ∧ (chainLog sbOk [7] [okRec 1]).map LogEntry.rid = [okRec 1].map DbEvent.id :=
  C2_malformed_aborts_cycle [okRec 1, badRec 2, okRec 3]
    { lastEventId := 0, clients := [7] } sbOk
    [okRec 1] (badRec 2) [okRec 3]
    (by decide) (by decide) rfl (fun _ _ h => SendR.noConfusion h)

/-- C3 counterexample: batch `[id 1, id 2]`, registry `[7]`, and a
subscriber 8 registered by its lifecycle task while record 1's send to
client 7 is awaited.  The claim says delivery of record 2 is attempted
to the batch-start membership `[7]` (7 never failed); in the code there
is no snapshot — the `for client in connected_clients` loop iterates the
live set, the concurrent `add` invalidates the iterator (RuntimeError),
the cycle aborts, and record 2 is attempted to nobody: the trace has a
single entry and the cursor stays 0. -/
theorem C3_counterexample :
    runBatchM sbOk 0 8 [okRec 1, okRec 2] [7] =
      (.excp [7, 8], [{ rid := 1, attempted := [7], delivered := [7] }])
    ∧ pollCycleM [okRec 1, okRec 2] sbOk 0 8 { lastEventId := 0, clients := [7] } =
      .next { lastEventId := 0, clients := [7, 8] }
        [{ rid := 1, attempted := [7], delivered := [7] }] := by
  constructor <;> decide

/-- C3 (amended): the Broadcaster takes no per-batch membership
snapshot; it iterates the live registry anew for every record.  When no
other task mutates the registry during the batch, the handles attempted
for each record are the batch-start membership minus the handles that
failed earlier in the same batch (first record: the full membership;
each later record: the survivors of the previous record).  When another
task does add a handle mid-batch, the iteration is invalidated and the
cycle aborts without advancing the cursor: the remaining records are
attempted to no one in that cycle. -/
theorem C3_per_record_membership (sb : Client → Nat → SendR)
    (recs : List DbEvent) (cl : List Client)
    (hg : ∀ r ∈ recs, r.createdAtOk = true) (hh : ∀ c i, sb c i ≠ .hang) :
    (runBatch sb recs cl).2 = chainLog sb cl recs
    ∧ (∀ h0 : 0 < (chainLog sb cl recs).length,
        ((chainLog sb cl recs).get ⟨0, h0⟩).attempted = cl)
    ∧ (∀ (k : Nat) (h : k + 1 < (chainLog sb cl recs).length)
        (h' : k < (chainLog sb cl recs).length),
        ((chainLog sb cl recs).get ⟨k + 1, h⟩).attempted =
          ((chainLog sb cl recs).get ⟨k, h'⟩).delivered)
    ∧ (∀ (k : Nat) (h : k < (chainLog sb cl recs).length),
        ((chainLog sb cl recs).get ⟨k, h⟩).delivered =
          ((chainLog sb cl recs).get ⟨k, h⟩).attempted.filter
            (fun c => isOk (sb c ((chainLog sb cl recs).get ⟨k, h⟩).rid)))
    ∧ ((∀ c i, sb c i = .ok) → ∀ (ri : Nat) (w : Client), ri < recs.length →
        ∃ lg2, runBatchM sb ri w recs cl = (.excp (pyAdd cl w), lg2) ∧
          lg2.length = ri + 1) := by
  refine ⟨by rw [runBatch_wf sb hh recs cl hg],
          fun h0 => chainLog_get_zero_attempted sb recs cl h0,
          fun k h h' => chainLog_chain sb recs cl k h h',
          fun k h => chainLog_get_delivered sb recs cl k h,
          fun hok ri w hri => runBatchM_aborts sb w hok recs cl ri hri hg⟩

/-- C3 witness: the amended behaviour on batch `[id 1, id 2]` with
registry `[7]`, both without mutation and with a mid-batch add of 8. -/
theorem C3_per_record_membership_witness :
    (runBatch sbOk [okRec 1, okRec 2] [7]).2 = chainLog sbOk [7] [okRec 1, okRec 2]
    ∧ ∃ lg2, runBatchM sbOk 0 8 [okRec 1, okRec 2] [7] =
        (.excp (pyAdd [7] 8), lg2) ∧ lg2.length = 0 + 1 := by
  have h := C3_per_record_membership sbOk [okRec 1, okRec 2] [7] (by decide)
    (fun _ _ hx => SendR.noConfusion hx)
  exact ⟨h.1, h.2.2.2.2 (fun _ _ => rfl) 0 8 (by decide)⟩

/-- Send behaviour in which every send to handle 5 raises and every
other send returns normally. -/
def sbExc5 : Client → Nat → SendR := fun c _ => if c = 5 then .exc else .ok

/-- C4: for every batch and every two connected subscribers A and B, if
A's send fails on some record of the batch, B still receives every
record of the batch in order; A is removed from the registry, receives
no record of the batch from the failing one on and nothing from any
future batch (as long as it does not reconnect), and A's failure
propagates no exception to the Event Source loop (the batch outcome is
`done`). -/
theorem C4_isolation (db : List DbEvent) (sb : Client → Nat → SendR)
    (recs : List DbEvent) (cl : List Client) (a b : Client)
    (hg : ∀ r ∈ recs, r.createdAtOk = true) (hh : ∀ c i, sb c i ≠ .hang)
    (hb : ∀ i, sb b i = .ok) (hbin : b ∈ cl)
    (i0 : Nat) (hi0 : i0 < recs.length)
    (hfail : sb a ((recs.get ⟨i0, hi0⟩).id) = .exc) :
    ∃ cl' lg, runBatch sb recs cl = (.done cl', lg)
    ∧ lg.map LogEntry.rid = recs.map DbEvent.id
    ∧ (∀ e ∈ lg, b ∈ e.delivered)
    ∧ a ∉ cl'
    ∧ (∀ (k : Nat) (hk : k < lg.length), i0 ≤ k → a ∉ (lg.get ⟨k, hk⟩).delivered)
    ∧ (∀ (n : Nat) (envs : List Env) (stF : St) (lgs : List (List LogEntry)),
        (∀ e ∈ envs, a ∉ e.joins) →
        runCycles db envs { lastEventId := n, clients := cl' } = .fin stF lgs →
        ∀ l ∈ lgs, ∀ en ∈ l, a ∉ en.delivered) := by
  have hwf := runBatch_wf sb hh recs cl hg
  have hnotin : a ∉ survivorsList sb cl recs :=
    survivorsList_fail sb a recs cl i0 hi0 hfail
  exact ⟨survivorsList sb cl recs, chainLog sb cl recs, hwf,
         chainLog_map_rid sb recs cl,
         fun e he => chainLog_delivered_mem_ok sb b hb recs cl hbin e he,
         hnotin,
         fun k hk hik => chainLog_fail_from sb a recs cl i0 k hi0 hk hfail hik,
         fun n envs stF lgs hj hrun => ((runCycles_avoid db a envs
           { lastEventId := n, clients := survivorsList sb cl recs }
           hnotin hj).1 stF lgs hrun).1⟩

/-- C4 witness: batch `[id 1, id 2]`, subscribers A = 5 (fails every
send) and B = 6 (all sends succeed). -/
theorem C4_isolation_witness :
    ∃ cl' lg, runBatch sbExc5 [okRec 1, okRec 2] [5, 6] = (.done cl', lg)
    ∧ lg.map LogEntry.rid = [okRec 1, okRec 2].map DbEvent.id
    ∧ (∀ e ∈ lg, 6 ∈ e.delivered)
    ∧ (5 : Client) ∉ cl'
    ∧ (∀ (k : Nat) (hk : k < lg.length), 0 ≤ k →
        (5 : Client) ∉ (lg.get ⟨k, hk⟩).delivered)
    ∧ (∀ (n : Nat) (envs : List Env) (stF : St) (lgs : List (List LogEntry)),
        (∀ e ∈ envs, (5 : Client) ∉ e.joins) →
        runCycles [okRec 1, okRec 2] envs { lastEventId := n, clients := cl' }
          = .fin stF lgs →
        ∀ l ∈ lgs, ∀ en ∈ l, (5 : Client) ∉ en.delivered) :=
  C4_isolation [okRec 1, okRec 2] sbExc5 [okRec 1, okRec 2] [5, 6] 5 6
    (by decide)
    (by intro c i h; by_cases hc : c = 5 <;> simp [sbExc5, hc] at h)
    (by intro i; simp [sbExc5])
    (by decide) 0 (by decide) (by decide)

/-- A 250-row `db_events` table with ids 1..250, all well-formed. -/
def db250 : List DbEvent := (List.range 250).map (fun i => okRec (i + 1))

/-- A cycle environment with no mid-sleep joins, a successful query, and
all sends succeeding. -/
def envOk : Env := { joins := [], fetchOk := true, sb := sbOk }

/-- The final globals of a finite run (with a fallback for a stuck run). -/
def resultSt (r : RunRes) (d : St) : St :=
  match r with
  | .fin st _ => st
  | .stuck _ => d

/-- The per-cycle delivery traces of a finite run. -/
def resultLogs (r : RunRes) : List (List LogEntry) :=
  match r with
  | .fin _ lgs => lgs
  | .stuck lgs => lgs

set_option maxRecDepth 8000 in
/-- C6: every poll cycle fetches at most `MAX_EVENTS_PER_POLL = 100`
records; with 250 unseen records the cursor is exactly 100 after cycle 1
(the 100th record's id, never higher), 200 after cycle 2, and 250 after
cycle 3; the three cycles together deliver ids 1..250 in order with no
record skipped, the table is not yet drained after cycle 2, and a fourth
query fetches nothing. -/
theorem C6_bounded_batch :
    (∀ (db : List DbEvent) (lastId : Nat),
      (fetchAll db lastId MAX_EVENTS_PER_POLL).length ≤ MAX_EVENTS_PER_POLL)
    ∧ resultSt (runCycles db250 [envOk] { lastEventId := 0, clients := [7] })
        { lastEventId := 0, clients := [] } = { lastEventId := 100, clients := [7] }
    ∧ resultSt (runCycles db250 [envOk, envOk] { lastEventId := 0, clients := [7] })
        { lastEventId := 0, clients := [] } = { lastEventId := 200, clients := [7] }
    ∧ resultSt (runCycles db250 [envOk, envOk, envOk] { lastEventId := 0, clients := [7] })
        { lastEventId := 0, clients := [] } = { lastEventId := 250, clients := [7] }
    ∧ ((resultLogs (runCycles db250 [envOk, envOk, envOk]
          { lastEventId := 0, clients := [7] })).map
        (fun l => l.map LogEntry.rid)).flatten = (List.range 250).map (fun i => i + 1)
    ∧ (fetchAll db250 200 MAX_EVENTS_PER_POLL).length = 50
    ∧ fetchAll db250 250 MAX_EVENTS_PER_POLL = [] :=
  ⟨fun db lastId => fetchAll_length_le db lastId MAX_EVENTS_PER_POLL,
   rfl, rfl, rfl, rfl, rfl, rfl⟩

/-- Send behaviour in which every send to handle 5 suspends forever and
every other send returns normally. -/
def sbHang5 : Client → Nat → SendR := fun c _ => if c = 5 then .hang else .ok

/-- C7 counterexample: one record, registry `[5, 6]`, handle 5's send
never completes.  The claim says the send times out, 5 is removed, and 6
still receives the batch; in the code `await client.send_json` has no
timeout, so the polling task suspends forever inside the loop: 6
receives nothing and 5 is never removed (the cycle result is `stuck`
with a single trace entry showing only the send to 5 was started). -/
theorem C7_counterexample :
    pollCycle [okRec 1] true sbHang5 { lastEventId := 0, clients := [5, 6] } =
      .stuck [{ rid := 1, attempted := [5], delivered := [] }] := by
  decide

/-- C7 (amended): sends carry no per-send timeout and are awaited
sequentially, so a send that never completes freezes the batch at that
handle: handles after it in the iteration are not attempted for that
record, no later record is attempted for anybody, the stalled handle is
never removed, and the polling loop never reaches another cycle. -/
theorem C7_no_send_timeout (sb : Client → Nat → SendR) (r : DbEvent)
    (rs : List DbEvent) (pre post : List Client) (a : Client)
    (hr : r.createdAtOk = true) (ha : sb a r.id = .hang)
    (hpre : ∀ c ∈ pre, sb c r.id ≠ .hang) :
    runBatch sb (r :: rs) (pre ++ a :: post) =
      (.hung, [{ rid := r.id, attempted := pre ++ [a],
                 delivered := pre.filter (fun c => isOk (sb c r.id)) }])
    ∧ (∀ (db : List DbEvent) (es : List Env) (st : St) (lg : List LogEntry),
        pollCycle db true sb st = .stuck lg →
        runCycles db ({ joins := [], fetchOk := true, sb := sb } :: es) st
          = .stuck [lg]) := by
  constructor
  · have hs := sendLoop_hang_split sb r.id a ha pre hpre post
    simp [runBatch, toMessage, hr, hs]
  · intro db es st lg h
    have hst0 : ({ st with clients := pyAddAll st.clients [] } : St) = st := rfl
    rw [runCycles_cons]
    simp only [hst0, h]

/-- C7 witness: the amended behaviour with registry `[5, 6]` and handle
5 hanging on the only record. -/
theorem C7_no_send_timeout_witness :
    runBatch sbHang5 [okRec 1] ([5, 6]) =
      (.hung, [{ rid := 1, attempted := [5], delivered := [] }])
    ∧ (∀ (db : List DbEvent) (es : List Env) (st : St) (lg : List LogEntry),
        pollCycle db true sbHang5 st = .stuck lg →
        runCycles db ({ joins := [], fetchOk := true, sb := sbHang5 } :: es) st
          = .stuck [lg]) :=
  C7_no_send_timeout sbHang5 (okRec 1) [] [] [6] 5 rfl (by decide) (by simp)

/-- C10: if an exception is raised while building the wire message for
the i-th record of a batch (i > 1, here: the first malformed record with
a well-formed non-empty prefix before it), the cycle aborts without
advancing the cursor even though the prefix was already delivered; the
next cycle fetches the very same rows and delivers the prefix again, so
a connected subscriber receives the same record ids twice. -/
theorem C10_duplicate_delivery (db : List DbEvent) (st : St)
    (sb : Client → Nat → SendR)
    (good : List DbEvent) (bad : DbEvent) (rest : List DbEvent)
    (hf : fetchAll db st.lastEventId MAX_EVENTS_PER_POLL = good ++ bad :: rest)
    (hgne : good ≠ [])
    (hg : ∀ r ∈ good, r.createdAtOk = true) (hb : bad.createdAtOk = false)
    (hok : ∀ c i, sb c i = .ok) :
    ∃ lg, pollCycle db true sb st = .next st lg
    ∧ runCycles db [{ joins := [], fetchOk := true, sb := sb },
                    { joins := [], fetchOk := true, sb := sb }] st = .fin st [lg, lg]
    ∧ lg.map LogEntry.rid = good.map DbEvent.id
    ∧ (∀ e ∈ lg, e.delivered = st.clients)
    ∧ lg ≠ [] := by
  have hh : ∀ c i, sb c i ≠ .hang := fun c i hcon => by
    rw [hok c i] at hcon
    exact SendR.noConfusion hcon
  have hsurv : survivorsList sb st.clients good = st.clients :=
    survivorsList_allok sb hok good st.clients
  have hchain := chainLog_allok sb hok good st.clients
  have hrb := runBatch_append_malformed sb hh bad rest hb good st.clients hg
  have hne : (fetchAll db st.lastEventId MAX_EVENTS_PER_POLL).isEmpty = false := by
    rw [hf]
    simp
  have hpc : pollCycle db true sb st = .next st (chainLog sb st.clients good) := by
    have h0 := pollCycle_excp db sb st _ _ hne (by rw [hf]; exact hrb)
    rw [hsurv] at h0
    exact h0
  have hst0 : ({ st with clients := pyAddAll st.clients [] } : St) = st := rfl
  refine ⟨chainLog sb st.clients good, hpc, ?_,
          chainLog_map_rid sb good st.clients, ?_, ?_⟩
  · rw [runCycles_cons]
    simp only [hst0, hpc]
    rw [runCycles_cons]
    simp only [hst0, hpc]
    simp [runCycles]
  · intro e he
    rw [hchain] at he
    obtain ⟨r, _, hr⟩ := List.mem_map.mp he
    rw [← hr]
  · rw [hchain]
    simpa using hgne

/-- C10 witness: table `[ok id 1, malformed id 2]`, one subscriber; two
consecutive cycles deliver id 1 twice with the cursor pinned at 0. -/
theorem C10_duplicate_delivery_witness :
    ∃ lg, pollCycle [okRec 1, badRec 2] true sbOk
        { lastEventId := 0, clients := [7] }
      = .next { lastEventId := 0, clients := [7] } lg
    ∧ runCycles [okRec 1, badRec 2]
        [{ joins := [], fetchOk := true, sb := sbOk },
         { joins := [], fetchOk := true, sb := sbOk }]
        { lastEventId := 0, clients := [7] }
      = .fin { lastEventId := 0, clients := [7] } [lg, lg]
    ∧ lg.map LogEntry.rid = [okRec 1].map DbEvent.id
    ∧ (∀ e ∈ lg, e.delivered = [7])
    ∧ lg ≠ [] :=
  C10_duplicate_delivery [okRec 1, badRec 2] { lastEventId := 0, clients := [7] }
    sbOk [okRec 1] (badRec 2) [] (by decide) (by decide) (by decide) rfl
    (fun _ _ => rfl)
